import Mathlib

/-!
Verification development for the vm subprovider (src/subproviders/vm.js) and the
hooked wallet subprovider of this provider-engine repository.  Pure decision
logic is embedded as executable Lean definitions; callback-threaded control
flow is embedded as explicit state passing together with logs of the
observable effects (remote fetches, gate operations, engine invocations).
-/

/-- A JavaScript error value; only its message participates in the logic. -/
structure JsError where
  message : String
deriving DecidableEq, Repr

/-- The apostrophe character, as a one-character string. -/
def apos : String := String.mk [Char.ofNat 39]

/-- Fixed text recognizing the insufficient-funds engine error (vm.js, NOT_ENOUGH_FUNDS). -/
def NOT_ENOUGH_FUNDS : String := "sender doesn" ++ apos ++ "t have enough funds to send tx."

/-- Fixed text recognizing the wrong-nonce engine error (vm.js, WRONG_NONCE). -/
def WRONG_NONCE : String :=
  "the tx doesn" ++ apos ++ "t have the correct nonce. account has nonce of:"

/-- The fixed list of recognized domain-level error texts (vm.js, VM_INTERNAL_ERRORS). -/
def VM_INTERNAL_ERRORS : List String := [NOT_ENOUGH_FUNDS, WRONG_NONCE]

/-- message.slice(0, n) on a JavaScript string: its first n characters. -/
def strSlice (s : String) (n : Nat) : String := String.mk (s.data.take n)

/-- isNormalVmError from vm.js: keep the patterns whose text equals the
corresponding starting slice of the message, and recognize the message when
exactly one pattern survives. -/
def isNormalVmError (message : String) : Bool :=
  (VM_INTERNAL_ERRORS.filter (fun errorPattern =>
      strSlice message errorPattern.length == errorPattern)).length == 1

/-- Outcome of the external engine invocation vm.runTx: either a failure carrying
an error, or a success carrying the consumed gas (hex digits, as the source
reads it with toString) and an optional return value from the vm. -/
inductive RunTxOutcome where
  | failure (err : JsError)
  | success (gasUsed : String) (vmReturnValue : Option String)
deriving DecidableEq, Repr

/-- The results object that runVm hands to its caller.  On the recognized
domain-error path the source builds the object literal with only an error
field, so gasUsed and the vm return value stay undefined (here: none). -/
structure RunVmResults where
  error : Option JsError := none
  gasUsed : Option String := none
  vmReturnValue : Option String := none
deriving DecidableEq, Repr

/-- Operations on the readiness gate observable from runVm. -/
inductive GateOp where
  | stop
  | go
deriving DecidableEq, Repr

/-- The completion callback of vm.runTx inside runVm (vm.js lines 105-118):
it reopens the gate first, unconditionally, and then classifies the engine
outcome: a failure whose message passes isNormalVmError is turned into a
successful callback carrying a results object with an error field; any other
failure is propagated as a fatal callback error; a success passes the engine
results through.  The first component records the gate operations performed. -/
def runTxCallback (outcome : RunTxOutcome) : List GateOp × Except JsError RunVmResults :=
  let gateOps := [GateOp.go]
  match outcome with
  | RunTxOutcome.failure err =>
      if isNormalVmError err.message then (gateOps, Except.ok { error := some err })
      else (gateOps, Except.error err)
  | RunTxOutcome.success gasUsed ret =>
      (gateOps, Except.ok { gasUsed := some gasUsed, vmReturnValue := ret })

/-- The callback value runVm delivers for a given engine outcome. -/
def runVm (outcome : RunTxOutcome) : Except JsError RunVmResults :=
  (runTxCallback outcome).2

/-- The gate operations performed by one runVm invocation that acquired the
gate: one stop on entry, then whatever the completion callback performs. -/
def runVmGateOps (outcome : RunTxOutcome) : List GateOp :=
  GateOp.stop :: (runTxCallback outcome).1

/-- The request payload fields read by VmSubprovider.sendAsync. -/
structure Payload where
  id : Nat
  jsonrpc : String
  method : String
deriving DecidableEq, Repr

/-- The response object assembled by VmSubprovider.sendAsync. -/
structure ResultObj where
  id : Nat
  jsonrpc : String
  result : Option String
deriving DecidableEq, Repr

/-- How one VmSubprovider.sendAsync call terminates: a synchronous TypeError
(reading a method of an undefined field), a callback with an error, a callback
with a response object, or no callback at all (method outside the switch). -/
inductive SendAsyncOutcome where
  | threw
  | cbErr (e : JsError)
  | cbOk (r : ResultObj)
  | noResponse
deriving DecidableEq, Repr

/-- The ethUtil helper that prepends 0x unless the string already starts with it. -/
def addHexPfx (s : String) : String :=
  if strSlice s 2 == "0x" then s else "0x" ++ s

/-- The ethUtil helper that removes a leading 0x when present. -/
def stripHexPfx (s : String) : String :=
  if strSlice s 2 == "0x" then String.mk (s.data.drop 2) else s

/-- VmSubprovider.sendAsync (vm.js lines 25-67) for a given engine outcome:
propagate an error from runVm, otherwise branch on the method.  The eth_call
branch maps a domain error to the placeholder result 0x and otherwise hex
encodes the vm return value when present.  The eth_estimateGas branch reads
results.gasUsed unconditionally and calls toString on it, which throws when
the field is absent (undefined). -/
def sendAsync (payload : Payload) (outcome : RunTxOutcome) : SendAsyncOutcome :=
  match runVm outcome with
  | Except.error err => SendAsyncOutcome.cbErr err
  | Except.ok results =>
    if payload.method == "eth_call" then
      let returnValue : Option String :=
        if results.error.isSome then some "0x"
        else match results.vmReturnValue with
          | some rv => some (addHexPfx rv)
          | none => none
      SendAsyncOutcome.cbOk { id := payload.id, jsonrpc := payload.jsonrpc, result := returnValue }
    else if payload.method == "eth_estimateGas" then
      match results.gasUsed with
      | none => SendAsyncOutcome.threw
      | some gasUsed => SendAsyncOutcome.cbOk
          { id := payload.id, jsonrpc := payload.jsonrpc, result := some (addHexPfx gasUsed) }
    else SendAsyncOutcome.noResponse

/-- A concrete message starting with the recognized wrong-nonce text. -/
def wrongNonceMsg : String := WRONG_NONCE ++ " 3"

/-- The methods of the remote fetches issued by the async.parallel join in
VmSubprovider._fetchAccount (vm.js lines 135-151): a nonce fetch through
_fetchAccountNonce and a balance fetch through _fetchAccountBalance, and
nothing else. -/
def fetchAccountParallelMethods : List String := ["eth_getTransactionCount", "eth_getBalance"]

/-- The results object of the _fetchAccount join.  The underscore-code field
mirrors results._code, which no parallel task assigns: it stays undefined. -/
structure FetchAccountResults where
  nonce : String
  balance : String
  _code : Option String
deriving DecidableEq, Repr

/-- The join of the two parallel fetches in _fetchAccount: only nonce and
balance are produced; results._code is left undefined (none). -/
def fetchAccountJoin (nonce balance : String) : FetchAccountResults :=
  { nonce := nonce, balance := balance, _code := none }

/-- JavaScript loose inequality between a possibly-undefined string and a
string literal: undefined != s is true for every string literal s. -/
def jsLooseNeqUndef (a : Option String) (b : String) : Bool :=
  match a with
  | none => true
  | some s => s != b

/-- The exists derivation written in _fetchAccount:
results.nonce !== 0x0 or results.balance != 0x0 or results._code != 0x,
evaluated with the JavaScript loose-inequality semantics on the undefined
_code field. -/
def fetchAccountExists (results : FetchAccountResults) : Bool :=
  (results.nonce != "0x0") || (results.balance != "0x0") ||
    jsLooseNeqUndef results._code "0x"

/-- The exists derivation as the specification states it: given the three
fetched values nonce, balance and code, exists is nonce not zero, or balance
not zero, or code not empty. -/
def specAccountExists (nonce balance code : String) : Bool :=
  (nonce != "0x0") || (balance != "0x0") || (code != "0x")

/-- FallbackAsyncStore (vm.js lines 237-261): an async key-value store whose
lookups fall back to an injected fetch function; puts are local only.  The
cache is the JavaScript object self.cache (undefined is none); fetch is the
injected fetch function, whose callback delivers either an error or a value. -/
structure FallbackAsyncStore (V : Type) where
  fetch : String → Except JsError V
  cache : String → Option V

/-- FallbackAsyncStore.prototype.get: return the cached value when the cache
holds one; otherwise invoke fetch; when fetch calls back with an error the
error is propagated and nothing is cached, and when fetch calls back with a
value that value is written into the cache and returned.  The third component
logs the keys for which fetch was invoked. -/
def FallbackAsyncStore.get {V : Type} (self : FallbackAsyncStore V) (address : String) :
    FallbackAsyncStore V × Except JsError V × List String :=
  match self.cache address with
  | some code => (self, Except.ok code, [])
  | none =>
    match self.fetch address with
    | Except.error err => (self, Except.error err, [address])
    | Except.ok value =>
      ({ self with cache := fun a => if a = address then some value else self.cache a },
       Except.ok value, [address])

/-- FallbackAsyncStore.prototype.set: write the value into the local cache. -/
def FallbackAsyncStore.set {V : Type} (self : FallbackAsyncStore V) (address : String) (code : V) :
    FallbackAsyncStore V :=
  { self with cache := fun a => if a = address then some code else self.cache a }

/-- Run a sequence of get calls against a store, threading the store state and
concatenating the fetch logs. -/
def runGets {V : Type} (s : FallbackAsyncStore V) : List String → FallbackAsyncStore V × List String
  | [] => (s, [])
  | a :: rest =>
    let st := FallbackAsyncStore.get s a
    let next := runGets st.1 rest
    (next.1, st.2.2 ++ next.2)

/-- FallbackStorageTrie (vm.js lines 205-228): a fake merkle patricia tree
whose lookups fall back to the network.  The underlying tree contents are the
store field (hex key to value); fetchStorage is the injected fetch function,
modeled as a total function of the hex key. -/
structure FallbackStorageTrie where
  store : String → Option String
  fetchStorage : String → String

/-- FallbackStorageTrie.prototype.get: consult the underlying tree first; on a
miss invoke fetchStorage, hex decode the raw value, and return it.  The source
returns the fetched value without writing it back into the tree.  The third
component logs the keys for which fetchStorage was invoked. -/
def FallbackStorageTrie.get (self : FallbackStorageTrie) (key : String) :
    FallbackStorageTrie × String × List String :=
  match self.store key with
  | some value => (self, value, [])
  | none =>
    let rawValue := self.fetchStorage key
    let value := stripHexPfx rawValue
    (self, value, [key])

/-- Run a sequence of get calls against a storage trie, threading the trie
state and concatenating the fetch logs. -/
def runTrieGets (t : FallbackStorageTrie) : List String → FallbackStorageTrie × List String
  | [] => (t, [])
  | k :: rest =>
    let st := FallbackStorageTrie.get t k
    let next := runTrieGets st.1 rest
    (next.1, st.2.2 ++ next.2)

/-- The transaction parameter fields handled by the hooked wallet subprovider.
Absent fields are none; the source address field is called from in the
source. -/
structure TxParams where
  fromAddr : String
  toAddr : Option String
  value : Option String
  data : Option String
  gas : Option String
  gasPrice : Option String
  nonce : Option String
deriving DecidableEq, Repr

/-- The payload methods and params emitted by the async.parallel join in
HookedWalletSubprovider.fillInTxExtras: a fee-price fetch and a
pending-nonce-count fetch for the sender. -/
def fillInTxExtrasPayloadMethods (txData : TxParams) : List (String × List String) :=
  [("eth_gasPrice", []), ("eth_getTransactionCount", [txData.fromAddr, "pending"])]

/-- The merge performed by fillInTxExtras: extend a defaults object holding
the fetched gasPrice, the fetched nonce, and the fixed gas default 0x9000 with
the caller-supplied transaction, so every field present in the callers own
transaction wins over the corresponding default. -/
def fillInTxExtrasMerge (gasPrice nonce : String) (txData : TxParams) : TxParams :=
  { txData with
    gasPrice := some (txData.gasPrice.getD gasPrice),
    nonce := some (txData.nonce.getD nonce),
    gas := some (txData.gas.getD "0x9000") }

/-- fillInTxExtras as a whole: the async.parallel join fails fast when either
fetch fails, otherwise the merge is applied. -/
def fillInTxExtras (gasPriceRes nonceRes : Except JsError String) (txData : TxParams) :
    Except JsError TxParams :=
  match gasPriceRes, nonceRes with
  | Except.error e, _ => Except.error e
  | _, Except.error e => Except.error e
  | Except.ok gasPrice, Except.ok nonce => Except.ok (fillInTxExtrasMerge gasPrice nonce txData)

/-- The steps of the send-transaction pipeline, in source order. -/
inductive PipelineStep where
  | approve
  | autofill
  | sign
  | submit
deriving DecidableEq, Repr

/-- The collaborators of the eth_sendTransaction branch, with each collaborator
invocation modeled by the callback value it delivers. -/
structure WalletHooks where
  approveTransaction : Except JsError Bool
  gasPriceResult : Except JsError String
  nonceResult : Except JsError String
  signTransaction : TxParams → Except JsError String
  submitTx : String → Except JsError String

/-- The distinct denial error produced when approval returns false. -/
def userDeniedError : JsError := { message := "User denied transaction." }

/-- What one run of the eth_sendTransaction branch produced: the value handed
to end, the list of pipeline steps whose collaborator was invoked, and the
transaction handed to signTransaction when signing was reached. -/
structure PipelineOutcome where
  result : Except JsError String
  steps : List PipelineStep
  signInput : Option TxParams
deriving Repr

/-- The eth_sendTransaction branch of HookedWalletSubprovider.handleRequest:
approve, then autofill, then sign, then submit, each nested in the previous
callback, with every error (and an approval of false) ending the request
before any later collaborator is invoked. -/
def handleSendTransaction (hooks : WalletHooks) (txParams : TxParams) : PipelineOutcome :=
  match hooks.approveTransaction with
  | Except.error e => { result := Except.error e, steps := [PipelineStep.approve], signInput := none }
  | Except.ok didApprove =>
    if !didApprove then
      { result := Except.error userDeniedError, steps := [PipelineStep.approve], signInput := none }
    else
      match fillInTxExtras hooks.gasPriceResult hooks.nonceResult txParams with
      | Except.error e =>
        { result := Except.error e,
          steps := [PipelineStep.approve, PipelineStep.autofill], signInput := none }
      | Except.ok fullTxParams =>
        match hooks.signTransaction fullTxParams with
        | Except.error e =>
          { result := Except.error e,
            steps := [PipelineStep.approve, PipelineStep.autofill, PipelineStep.sign],
            signInput := some fullTxParams }
        | Except.ok rawTx =>
          match hooks.submitTx rawTx with
          | Except.error e =>
            { result := Except.error e,
              steps := [PipelineStep.approve, PipelineStep.autofill, PipelineStep.sign,
                        PipelineStep.submit],
              signInput := some fullTxParams }
          | Except.ok result =>
            { result := Except.ok result,
              steps := [PipelineStep.approve, PipelineStep.autofill, PipelineStep.sign,
                        PipelineStep.submit],
              signInput := some fullTxParams }

/-- Phase of one simulate/estimate request in the gate simulation. -/
inductive ReqPhase where
  | start
  | queued
  | running
  | done
deriving DecidableEq, Repr

/-- Observable engine events: an engine invocation of a request starting, or
one completing. -/
inductive VmEvent where
  | engineStart (i : Bool)
  | engineEnd (i : Bool)
deriving DecidableEq, Repr

/-- Modelled from the spec: the Stoplight concurrency gate used by runVm lives
in util/stoplight.js, which is not among the sources; following section 4.2 of
the specification, the gate is OPEN or CLOSED with a FIFO queue of waiting
continuations, await runs the continuation immediately when OPEN and enqueues
it when CLOSED, open releases the queued continuations in FIFO order, and no
newly scheduled continuation runs between a close and the matching open.  The
state below is the gate shared by two concurrent requests (false and true),
each following runVm: await, then stop and start the engine invocation, then
on engine completion go.  The trace records the engine events. -/
structure GateSimState where
  gateOpen : Bool
  gateQueue : List Bool
  phaseF : ReqPhase
  phaseT : ReqPhase
  trace : List VmEvent
deriving DecidableEq, Repr

/-- Phase of a request in the gate simulation. -/
def phaseOf (s : GateSimState) (i : Bool) : ReqPhase :=
  if i then s.phaseT else s.phaseF

/-- Replace the phase of one request. -/
def setPhase (s : GateSimState) (i : Bool) (p : ReqPhase) : GateSimState :=
  if i then { s with phaseT := p } else { s with phaseF := p }

/-- External stimuli of the gate simulation: a request arriving at runVm, or
the engine invocation of a request completing. -/
inductive VmAction where
  | arrive (i : Bool)
  | complete (i : Bool)
deriving DecidableEq, Repr

/-- Release the queued continuations in FIFO order; each released continuation
closes the gate again and starts its engine invocation, as the awaited body of
runVm does. -/
def releaseAll (s : GateSimState) : List Bool → GateSimState
  | [] => s
  | j :: rest =>
      releaseAll { (setPhase s j ReqPhase.running) with
        gateOpen := false, trace := s.trace ++ [VmEvent.engineStart j] } rest

/-- One step of the gate simulation.  An arrival with the gate open runs its
continuation immediately: it closes the gate and starts the engine invocation;
with the gate closed the continuation is enqueued.  A completion records the
engine invocation ending, reopens the gate as the runTx callback does first,
and releases the queued continuations in FIFO order.  Stimuli that do not
match the phase of the request are ignored. -/
def vmStep (s : GateSimState) (a : VmAction) : GateSimState :=
  match a with
  | VmAction.arrive i =>
    if phaseOf s i = ReqPhase.start then
      if s.gateOpen then
        { (setPhase s i ReqPhase.running) with
          gateOpen := false, trace := s.trace ++ [VmEvent.engineStart i] }
      else
        { (setPhase s i ReqPhase.queued) with gateQueue := s.gateQueue ++ [i] }
    else s
  | VmAction.complete i =>
    if phaseOf s i = ReqPhase.running then
      releaseAll
        { (setPhase s i ReqPhase.done) with
          gateOpen := true, gateQueue := [], trace := s.trace ++ [VmEvent.engineEnd i] }
        s.gateQueue
    else s

/-- Initial state: the constructor opens the gate before any request. -/
def initState : GateSimState :=
  { gateOpen := true, gateQueue := [], phaseF := ReqPhase.start, phaseT := ReqPhase.start,
    trace := [] }

/-- Run a sequence of stimuli from the initial state. -/
def runActions (acts : List VmAction) : GateSimState :=
  acts.foldl vmStep initState

/-- Scan a trace with the currently running invocation: a start is legal only
when no invocation is in flight, an end only for the invocation in flight.
The scan returns none on an illegal trace, otherwise the in-flight invocation
after the trace. -/
def traceRun : List VmEvent → Option Bool → Option (Option Bool)
  | [], r => some r
  | VmEvent.engineStart i :: rest, none => traceRun rest (some i)
  | VmEvent.engineStart _ :: _, some _ => none
  | VmEvent.engineEnd i :: rest, some j => if i = j then traceRun rest none else none
  | VmEvent.engineEnd _ :: _, none => none

/-- A trace is sequential when the scan accepts it: engine invocations never
overlap, and an invocation starts only after every earlier one completed. -/
def sequentialTrace (t : List VmEvent) : Bool := (traceRun t none).isSome

/-- The request currently in the running phase, if any. -/
def runningOf (s : GateSimState) : Option Bool :=
  if s.phaseF = ReqPhase.running then some false
  else if s.phaseT = ReqPhase.running then some true
  else none

/-- The simulation invariant: the trace is sequential and ends with exactly
the running request in flight; the gate is open exactly when no request runs;
at most one request runs; queued entries are in the queued phase; the queue
has no duplicates. -/
def GateInv (s : GateSimState) : Prop :=
  traceRun s.trace none = some (runningOf s) ∧
  (s.gateOpen = true ↔ runningOf s = none) ∧
  ¬(s.phaseF = ReqPhase.running ∧ s.phaseT = ReqPhase.running) ∧
  (∀ b ∈ s.gateQueue, phaseOf s b = ReqPhase.queued) ∧
  s.gateQueue.Nodup

/-- A caller-supplied transaction with no optional field present. -/
def emptyTxParams : TxParams :=
  { fromAddr := "0xabc", toAddr := none, value := none, data := none, gas := none,
    gasPrice := none, nonce := none }

/-- Concrete collaborators whose approval answers false. -/
def denyHooks : WalletHooks :=
  { approveTransaction := Except.ok false, gasPriceResult := Except.ok "0x4",
    nonceResult := Except.ok "0x7", signTransaction := fun _ => Except.ok "0xdead",
    submitTx := fun _ => Except.ok "0xbeef" }

/-- Concrete collaborators for the autofill scenario: approval answers true,
the fee-price fetch answers 0x4 and the pending-count fetch answers 0x7. -/
def scenarioHooks : WalletHooks :=
  { approveTransaction := Except.ok true, gasPriceResult := Except.ok "0x4",
    nonceResult := Except.ok "0x7", signTransaction := fun _ => Except.ok "0xdead",
    submitTx := fun _ => Except.ok "0xbeef" }


/-- Claim C1: for every payload whose engine invocation fails with a message
that the fixed domain-error recognizer accepts, runVm delivers a successful
callback (no error in the first callback slot) whose results object carries a
populated error field and nothing else, rather than a fatal error; and both
fixed texts, the insufficient-funds one and the wrong-nonce one, are accepted
by the recognizer. -/
theorem c1 (err : JsError) (h : isNormalVmError err.message = true) :
    runVm (RunTxOutcome.failure err) =
      Except.ok { error := some err, gasUsed := none, vmReturnValue := none } ∧
    isNormalVmError NOT_ENOUGH_FUNDS = true ∧ isNormalVmError WRONG_NONCE = true := by
  refine ⟨?_, by decide, by decide⟩
  simp [runVm, runTxCallback, h]

/-- Witness for C1 at the concrete wrong-nonce message. -/
theorem c1_witness :
    isNormalVmError wrongNonceMsg = true ∧
    (runVm (RunTxOutcome.failure { message := wrongNonceMsg }) =
       Except.ok { error := some { message := wrongNonceMsg }, gasUsed := none,
                   vmReturnValue := none } ∧
     isNormalVmError NOT_ENOUGH_FUNDS = true ∧ isNormalVmError WRONG_NONCE = true) :=
  ⟨by decide, c1 { message := wrongNonceMsg } (by decide)⟩

/-- Claim C8: for every engine outcome, the gate operations of one runVm
invocation that acquired the gate contain exactly one go (the release) and
exactly one stop (the acquisition): the release happens exactly once per
acquisition, on the success path and on both engine-invocation failure paths
(domain error and infrastructure error) alike. -/
theorem c8 (outcome : RunTxOutcome) :
    (runVmGateOps outcome).count GateOp.go = 1 ∧
    (runVmGateOps outcome).count GateOp.stop = 1 := by
  cases outcome with
  | failure err =>
    by_cases h : isNormalVmError err.message <;>
      simp [runVmGateOps, runTxCallback, h, List.count_cons]
  | success gasUsed ret =>
    simp [runVmGateOps, runTxCallback, List.count_cons]

/-- Claim C10: for every eth_estimateGas payload whose engine invocation fails
with a recognized domain-level error, runVm delivers a results object holding
only an error field, and the eth_estimateGas branch of sendAsync reads the
absent gasUsed field and calls toString on it, so the call throws and no
response object is ever produced on that path. -/
theorem c10 (payload : Payload) (err : JsError)
    (hm : payload.method = "eth_estimateGas")
    (h : isNormalVmError err.message = true) :
    runVm (RunTxOutcome.failure err) =
      Except.ok { error := some err, gasUsed := none, vmReturnValue := none } ∧
    sendAsync payload (RunTxOutcome.failure err) = SendAsyncOutcome.threw := by
  constructor
  · simp [runVm, runTxCallback, h]
  · simp [sendAsync, runVm, runTxCallback, h, hm]

/-- Witness for C10 at a concrete estimate-gas payload and the concrete
wrong-nonce message. -/
theorem c10_witness :
    ({ id := 1, jsonrpc := "2.0", method := "eth_estimateGas" } : Payload).method =
      "eth_estimateGas" ∧
    isNormalVmError wrongNonceMsg = true ∧
    (runVm (RunTxOutcome.failure { message := wrongNonceMsg }) =
       Except.ok { error := some { message := wrongNonceMsg }, gasUsed := none,
                   vmReturnValue := none } ∧
     sendAsync { id := 1, jsonrpc := "2.0", method := "eth_estimateGas" }
       (RunTxOutcome.failure { message := wrongNonceMsg }) = SendAsyncOutcome.threw) :=
  ⟨rfl, by decide,
   c10 { id := 1, jsonrpc := "2.0", method := "eth_estimateGas" }
     { message := wrongNonceMsg } rfl (by decide)⟩

/-- Claim C2 (divergence): the account-state lookup of _fetchAccount issues
only two remote fetches, the nonce fetch and the balance fetch, never a code
fetch; and on an empty account (nonce 0x0, balance 0x0, empty code 0x) the
source derivation yields exists true, because the undefined _code field
satisfies the loose inequality against 0x, while the derivation the claim
states yields exists false. -/
theorem c2 :
    fetchAccountParallelMethods = ["eth_getTransactionCount", "eth_getBalance"] ∧
    "eth_getCode" ∉ fetchAccountParallelMethods ∧
    fetchAccountExists (fetchAccountJoin "0x0" "0x0") = true ∧
    specAccountExists "0x0" "0x0" "0x" = false := by
  refine ⟨rfl, by decide, by decide, by decide⟩

/-- Once a key is cached, a sequence of gets preserves its cached value and
never invokes fetch for it. -/
theorem runGets_cached {V : Type} (addrs : List String) (s : FallbackAsyncStore V)
    (k : String) (v : V) (h : s.cache k = some v) :
    (runGets s addrs).1.cache k = some v ∧ (runGets s addrs).2.count k = 0 := by
  induction addrs generalizing s with
  | nil => simp [runGets, h]
  | cons a rest ih =>
    cases hc : s.cache a with
    | some code =>
      have hr := ih s h
      simp [runGets, FallbackAsyncStore.get, hc, hr.1, hr.2]
    | none =>
      have hak : k ≠ a := by
        intro e
        rw [e, hc] at h
        cases h
      cases hf : s.fetch a with
      | error err =>
        have hr := ih s h
        simp [runGets, FallbackAsyncStore.get, hc, hf, hr.1, hr.2, List.count_cons, hak]
      | ok value =>
        have h2 : (({ s with cache := fun x => if x = a then some value else s.cache x } : FallbackAsyncStore V)).cache k = some v := by
          simp [hak, h]
        have hr := ih _ h2
        simp [runGets, FallbackAsyncStore.get, hc, hf, hr.1, hr.2, List.count_cons, hak]

/-- For a key not in the cache whose fetch succeeds, any sequence of gets
invokes fetch for it at most once. -/
theorem runGets_count_le_one {V : Type} (addrs : List String) (s : FallbackAsyncStore V)
    (k : String) (v : V) (h : s.cache k = none) (hf : s.fetch k = Except.ok v) :
    (runGets s addrs).2.count k ≤ 1 := by
  induction addrs generalizing s with
  | nil => simp [runGets]
  | cons a rest ih =>
    by_cases hak : a = k
    · subst hak
      have h2 : (({ s with cache := fun x => if x = a then some v else s.cache x } : FallbackAsyncStore V)).cache a = some v := by
        simp
      have hr := runGets_cached rest _ a v h2
      simp [runGets, FallbackAsyncStore.get, h, hf, hr.2, List.count_cons]
    · cases hc : s.cache a with
      | some code =>
        have := ih s h hf
        simpa [runGets, FallbackAsyncStore.get, hc, List.count_cons] using this
      | none =>
        have hka : ¬k = a := fun e => hak e.symm
        cases hfa : s.fetch a with
        | error err =>
          have := ih s h hf
          simp [runGets, FallbackAsyncStore.get, hc, hfa, List.count_cons, hak, hka, this]
        | ok value =>
          have h2 : (({ s with cache := fun x => if x = a then some value else s.cache x } : FallbackAsyncStore V)).cache k = none := by
            simp [hka, h]
          have h3 : (({ s with cache := fun x => if x = a then some value else s.cache x } : FallbackAsyncStore V)).fetch k = Except.ok v := hf
          have := ih _ h2 h3
          simp [runGets, FallbackAsyncStore.get, hc, hfa, List.count_cons, hak, hka, this]

/-- Counterexample to claim C3: with an injected fetch whose callback delivers
an error, a miss caches nothing (the source returns on the error before the
cache write), so two gets of the same never-written key invoke fetch twice:
over that get sequence more than one fetch invocation occurs for the key. -/
theorem c3_cex :
    (runGets ({ fetch := fun _ => Except.error { message := "boom" }, cache := fun _ => none } : FallbackAsyncStore Nat) ["a", "a"]).2.count "a" = 2 ∧
    (FallbackAsyncStore.get ({ fetch := fun _ => Except.error { message := "boom" }, cache := fun _ => none } : FallbackAsyncStore Nat) "a").1.cache "a" = none := by
  constructor
  · decide
  · rfl

/-- Claim C3 as amended: for a key never written into a FallbackAsyncStore, a
get on a miss always invokes fetch; when the fetch calls back with an error
the error is propagated, nothing is cached, and the next get of the key
invokes fetch again; when the fetch calls back with a value the value is
cached and returned, and from then on gets serve the cache, so over any
sequence of gets at most one successful fetch occurs per key, and for a key
whose fetch succeeds at most one fetch invocation occurs at all. -/
theorem c3 {V : Type} (s : FallbackAsyncStore V) (k : String) (v : V) (e : JsError)
    (addrs : List String) (h : s.cache k = none) :
    (FallbackAsyncStore.get s k).2.2 = [k] ∧
    (s.fetch k = Except.error e →
      (FallbackAsyncStore.get s k).2.1 = Except.error e ∧
      (FallbackAsyncStore.get s k).1 = s ∧
      (FallbackAsyncStore.get (FallbackAsyncStore.get s k).1 k).2.2 = [k]) ∧
    (s.fetch k = Except.ok v →
      (FallbackAsyncStore.get s k).2.1 = Except.ok v ∧
      (FallbackAsyncStore.get s k).1.cache k = some v ∧
      (runGets s addrs).2.count k ≤ 1) := by
  refine ⟨?_, ?_, ?_⟩
  · cases hf : s.fetch k <;> simp [FallbackAsyncStore.get, h, hf]
  · intro hf
    refine ⟨?_, ?_, ?_⟩ <;> simp [FallbackAsyncStore.get, h, hf]
  · intro hf
    exact ⟨by simp [FallbackAsyncStore.get, h, hf], by simp [FallbackAsyncStore.get, h, hf],
      runGets_count_le_one addrs s k v h hf⟩

/-- Witness for C3 as amended, at a concrete store whose fetch succeeds and a
repeated get sequence. -/
theorem c3_witness :
    (({ fetch := fun _ => Except.ok 5, cache := fun _ => none } : FallbackAsyncStore Nat)).cache "a" = none ∧
    ((FallbackAsyncStore.get ({ fetch := fun _ => Except.ok 5, cache := fun _ => none } : FallbackAsyncStore Nat) "a").2.2 = ["a"] ∧
     ((({ fetch := fun _ => Except.ok 5, cache := fun _ => none } : FallbackAsyncStore Nat)).fetch "a" = Except.error { message := "boom" } →
       (FallbackAsyncStore.get ({ fetch := fun _ => Except.ok 5, cache := fun _ => none } : FallbackAsyncStore Nat) "a").2.1 = Except.error { message := "boom" } ∧
       (FallbackAsyncStore.get ({ fetch := fun _ => Except.ok 5, cache := fun _ => none } : FallbackAsyncStore Nat) "a").1 = { fetch := fun _ => Except.ok 5, cache := fun _ => none } ∧
       (FallbackAsyncStore.get (FallbackAsyncStore.get ({ fetch := fun _ => Except.ok 5, cache := fun _ => none } : FallbackAsyncStore Nat) "a").1 "a").2.2 = ["a"]) ∧
     ((({ fetch := fun _ => Except.ok 5, cache := fun _ => none } : FallbackAsyncStore Nat)).fetch "a" = Except.ok 5 →
       (FallbackAsyncStore.get ({ fetch := fun _ => Except.ok 5, cache := fun _ => none } : FallbackAsyncStore Nat) "a").2.1 = Except.ok 5 ∧
       (FallbackAsyncStore.get ({ fetch := fun _ => Except.ok 5, cache := fun _ => none } : FallbackAsyncStore Nat) "a").1.cache "a" = some 5 ∧
       (runGets ({ fetch := fun _ => Except.ok 5, cache := fun _ => none } : FallbackAsyncStore Nat) ["a", "a", "b"]).2.count "a" ≤ 1)) :=
  ⟨rfl, c3 { fetch := fun _ => Except.ok 5, cache := fun _ => none } "a" 5
    { message := "boom" } ["a", "a", "b"] rfl⟩

/-- Claim C4: a get performed after a set of the same key returns the set
value without invoking fetch, whatever fetch would return; and over any later
sequence of gets the locally written value is never evicted or shadowed: the
cache keeps it and fetch is never invoked for that key. -/
theorem c4 {V : Type} (s : FallbackAsyncStore V) (k : String) (v : V) (addrs : List String) :
    (FallbackAsyncStore.get (FallbackAsyncStore.set s k v) k).2.1 = Except.ok v ∧
    (FallbackAsyncStore.get (FallbackAsyncStore.set s k v) k).2.2 = [] ∧
    (runGets (FallbackAsyncStore.set s k v) addrs).1.cache k = some v ∧
    (runGets (FallbackAsyncStore.set s k v) addrs).2.count k = 0 := by
  have hs : (FallbackAsyncStore.set s k v).cache k = some v := by
    simp [FallbackAsyncStore.set]
  exact ⟨by simp [FallbackAsyncStore.get, hs], by simp [FallbackAsyncStore.get, hs],
    (runGets_cached addrs _ k v hs).1, (runGets_cached addrs _ k v hs).2⟩

/-- Counterexample to claim C5: on a trie holding nothing, two gets of the
same never-written slot invoke the injected storage fetch twice, and after the
first get the trie still holds nothing for that slot: the fetched value is not
cached. -/
theorem c5_cex :
    (runTrieGets { store := fun _ => none, fetchStorage := fun _ => "0x2a" }
       ["aa", "aa"]).2.count "aa" = 2 ∧
    (FallbackStorageTrie.get { store := fun _ => none, fetchStorage := fun _ => "0x2a" }
       "aa").1.store "aa" = none := by
  constructor
  · decide
  · rfl

/-- Claim C5 as amended: FallbackStorageTrie.get falls back to the injected
storage fetch on a local miss and returns the hex-decoded fetched value, but
does not cache it in the trie: the trie is returned unchanged and a second get
of the same never-written slot invokes the fetch again. -/
theorem c5 (t : FallbackStorageTrie) (k : String) (h : t.store k = none) :
    (FallbackStorageTrie.get t k).2.1 = stripHexPfx (t.fetchStorage k) ∧
    (FallbackStorageTrie.get t k).2.2 = [k] ∧
    (FallbackStorageTrie.get t k).1 = t ∧
    (FallbackStorageTrie.get (FallbackStorageTrie.get t k).1 k).2.2 = [k] := by
  refine ⟨?_, ?_, ?_, ?_⟩ <;> simp [FallbackStorageTrie.get, h]

/-- Witness for C5 as amended at a concrete trie. -/
theorem c5_witness :
    (({ store := fun _ => none, fetchStorage := fun _ => "0x2a" } :
        FallbackStorageTrie)).store "aa" = none ∧
    ((FallbackStorageTrie.get { store := fun _ => none, fetchStorage := fun _ => "0x2a" }
        "aa").2.1 =
       stripHexPfx ((({ store := fun _ => none, fetchStorage := fun _ => "0x2a" } :
         FallbackStorageTrie)).fetchStorage "aa") ∧
     (FallbackStorageTrie.get { store := fun _ => none, fetchStorage := fun _ => "0x2a" }
        "aa").2.2 = ["aa"] ∧
     (FallbackStorageTrie.get { store := fun _ => none, fetchStorage := fun _ => "0x2a" }
        "aa").1 =
       { store := fun _ => none, fetchStorage := fun _ => "0x2a" } ∧
     (FallbackStorageTrie.get
        (FallbackStorageTrie.get { store := fun _ => none, fetchStorage := fun _ => "0x2a" }
           "aa").1 "aa").2.2 = ["aa"]) :=
  ⟨rfl, c5 { store := fun _ => none, fetchStorage := fun _ => "0x2a" } "aa" rfl⟩


/-- Claim C6: the executed steps of the send-transaction pipeline always form
an initial segment of approve, autofill, sign, submit, in that strict order,
and every failing step halts the pipeline with that step as the last executed
one, propagating that step error, so no later collaborator runs: an approval
error or an approval of false ends after approve alone (the latter with the
distinct denial error, no autofill fetch issued, no signing), an autofill
failure ends after autofill with signing never invoked, a signing failure ends
after sign with submission never invoked, and a submission failure propagates
the submission error. -/
theorem c6 (hooks : WalletHooks) (txParams : TxParams) :
    (handleSendTransaction hooks txParams).steps <+:
      [PipelineStep.approve, PipelineStep.autofill, PipelineStep.sign, PipelineStep.submit] ∧
    (hooks.approveTransaction = Except.ok false →
      (handleSendTransaction hooks txParams).result = Except.error userDeniedError ∧
      (handleSendTransaction hooks txParams).steps = [PipelineStep.approve] ∧
      (handleSendTransaction hooks txParams).signInput = none) ∧
    (∀ e : JsError, hooks.approveTransaction = Except.error e →
      (handleSendTransaction hooks txParams).result = Except.error e ∧
      (handleSendTransaction hooks txParams).steps = [PipelineStep.approve] ∧
      (handleSendTransaction hooks txParams).signInput = none) ∧
    (∀ e : JsError, hooks.approveTransaction = Except.ok true →
      fillInTxExtras hooks.gasPriceResult hooks.nonceResult txParams = Except.error e →
      (handleSendTransaction hooks txParams).result = Except.error e ∧
      (handleSendTransaction hooks txParams).steps =
        [PipelineStep.approve, PipelineStep.autofill] ∧
      (handleSendTransaction hooks txParams).signInput = none) ∧
    (∀ (e : JsError) (tx : TxParams), hooks.approveTransaction = Except.ok true →
      fillInTxExtras hooks.gasPriceResult hooks.nonceResult txParams = Except.ok tx →
      hooks.signTransaction tx = Except.error e →
      (handleSendTransaction hooks txParams).result = Except.error e ∧
      (handleSendTransaction hooks txParams).steps =
        [PipelineStep.approve, PipelineStep.autofill, PipelineStep.sign]) ∧
    (∀ (e : JsError) (tx : TxParams) (raw : String), hooks.approveTransaction = Except.ok true →
      fillInTxExtras hooks.gasPriceResult hooks.nonceResult txParams = Except.ok tx →
      hooks.signTransaction tx = Except.ok raw →
      hooks.submitTx raw = Except.error e →
      (handleSendTransaction hooks txParams).result = Except.error e ∧
      (handleSendTransaction hooks txParams).steps =
        [PipelineStep.approve, PipelineStep.autofill, PipelineStep.sign,
         PipelineStep.submit]) := by
  refine ⟨?_, ?_, ?_, ?_, ?_, ?_⟩
  · rcases ha : hooks.approveTransaction with e | d
    · have h1 : (handleSendTransaction hooks txParams).steps = [PipelineStep.approve] := by
        simp [handleSendTransaction, ha]
      rw [h1]
      exact ⟨[PipelineStep.autofill, PipelineStep.sign, PipelineStep.submit], rfl⟩
    · cases d with
      | false =>
        have h1 : (handleSendTransaction hooks txParams).steps = [PipelineStep.approve] := by
          simp [handleSendTransaction, ha]
        rw [h1]
        exact ⟨[PipelineStep.autofill, PipelineStep.sign, PipelineStep.submit], rfl⟩
      | true =>
        rcases hf : fillInTxExtras hooks.gasPriceResult hooks.nonceResult txParams with e | tx
        · have h1 : (handleSendTransaction hooks txParams).steps =
              [PipelineStep.approve, PipelineStep.autofill] := by
            simp [handleSendTransaction, ha, hf]
          rw [h1]
          exact ⟨[PipelineStep.sign, PipelineStep.submit], rfl⟩
        · rcases hs : hooks.signTransaction tx with e | raw
          · have h1 : (handleSendTransaction hooks txParams).steps =
                [PipelineStep.approve, PipelineStep.autofill, PipelineStep.sign] := by
              simp [handleSendTransaction, ha, hf, hs]
            rw [h1]
            exact ⟨[PipelineStep.submit], rfl⟩
          · rcases hsub : hooks.submitTx raw with e | res
            · have h1 : (handleSendTransaction hooks txParams).steps =
                  [PipelineStep.approve, PipelineStep.autofill, PipelineStep.sign,
                   PipelineStep.submit] := by
                simp [handleSendTransaction, ha, hf, hs, hsub]
              rw [h1]
            · have h1 : (handleSendTransaction hooks txParams).steps =
                  [PipelineStep.approve, PipelineStep.autofill, PipelineStep.sign,
                   PipelineStep.submit] := by
                simp [handleSendTransaction, ha, hf, hs, hsub]
              rw [h1]
  · intro ha
    simp [handleSendTransaction, ha]
  · intro e ha
    simp [handleSendTransaction, ha]
  · intro e ha hf
    simp [handleSendTransaction, ha, hf]
  · intro e tx ha hf hs
    simp [handleSendTransaction, ha, hf, hs]
  · intro e tx raw ha hf hs hsub
    simp [handleSendTransaction, ha, hf, hs, hsub]

/-- Witness for C6 at the concrete denying collaborators. -/
theorem c6_witness :
    (handleSendTransaction denyHooks emptyTxParams).steps <+:
      [PipelineStep.approve, PipelineStep.autofill, PipelineStep.sign, PipelineStep.submit] ∧
    (denyHooks.approveTransaction = Except.ok false →
      (handleSendTransaction denyHooks emptyTxParams).result = Except.error userDeniedError ∧
      (handleSendTransaction denyHooks emptyTxParams).steps = [PipelineStep.approve] ∧
      (handleSendTransaction denyHooks emptyTxParams).signInput = none) ∧
    (∀ e : JsError, denyHooks.approveTransaction = Except.error e →
      (handleSendTransaction denyHooks emptyTxParams).result = Except.error e ∧
      (handleSendTransaction denyHooks emptyTxParams).steps = [PipelineStep.approve] ∧
      (handleSendTransaction denyHooks emptyTxParams).signInput = none) ∧
    (∀ e : JsError, denyHooks.approveTransaction = Except.ok true →
      fillInTxExtras denyHooks.gasPriceResult denyHooks.nonceResult emptyTxParams =
        Except.error e →
      (handleSendTransaction denyHooks emptyTxParams).result = Except.error e ∧
      (handleSendTransaction denyHooks emptyTxParams).steps =
        [PipelineStep.approve, PipelineStep.autofill] ∧
      (handleSendTransaction denyHooks emptyTxParams).signInput = none) ∧
    (∀ (e : JsError) (tx : TxParams), denyHooks.approveTransaction = Except.ok true →
      fillInTxExtras denyHooks.gasPriceResult denyHooks.nonceResult emptyTxParams =
        Except.ok tx →
      denyHooks.signTransaction tx = Except.error e →
      (handleSendTransaction denyHooks emptyTxParams).result = Except.error e ∧
      (handleSendTransaction denyHooks emptyTxParams).steps =
        [PipelineStep.approve, PipelineStep.autofill, PipelineStep.sign]) ∧
    (∀ (e : JsError) (tx : TxParams) (raw : String),
      denyHooks.approveTransaction = Except.ok true →
      fillInTxExtras denyHooks.gasPriceResult denyHooks.nonceResult emptyTxParams =
        Except.ok tx →
      denyHooks.signTransaction tx = Except.ok raw →
      denyHooks.submitTx raw = Except.error e →
      (handleSendTransaction denyHooks emptyTxParams).result = Except.error e ∧
      (handleSendTransaction denyHooks emptyTxParams).steps =
        [PipelineStep.approve, PipelineStep.autofill, PipelineStep.sign,
         PipelineStep.submit]) :=
  c6 denyHooks emptyTxParams

/-- Claim C7: the autofill step fetches the current fee price and the pending
nonce count of the sender (its two parallel payloads), merges them into the
transaction with every caller-supplied field taking precedence over the
fetched value, and defaults gas to 0x9000 when absent; in particular a
transaction with no nonce, gasPrice or gas, autofilled from fee price 0x4 and
pending count 0x7, becomes nonce 0x7, gasPrice 0x4, gas 0x9000 and is the
transaction handed to the signing collaborator. -/
theorem c7 (hooks : WalletHooks) (txParams : TxParams)
    (ha : hooks.approveTransaction = Except.ok true)
    (hg : hooks.gasPriceResult = Except.ok "0x4")
    (hnc : hooks.nonceResult = Except.ok "0x7")
    (h1 : txParams.nonce = none) (h2 : txParams.gasPrice = none) (h3 : txParams.gas = none) :
    fillInTxExtrasPayloadMethods txParams =
      [("eth_gasPrice", []), ("eth_getTransactionCount", [txParams.fromAddr, "pending"])] ∧
    (∀ (tx : TxParams) (gp n v : String),
      tx.gasPrice = some v → (fillInTxExtrasMerge gp n tx).gasPrice = some v) ∧
    (∀ (tx : TxParams) (gp n v : String),
      tx.nonce = some v → (fillInTxExtrasMerge gp n tx).nonce = some v) ∧
    (∀ (tx : TxParams) (gp n v : String),
      tx.gas = some v → (fillInTxExtrasMerge gp n tx).gas = some v) ∧
    fillInTxExtrasMerge "0x4" "0x7" txParams =
      { txParams with nonce := some "0x7", gasPrice := some "0x4", gas := some "0x9000" } ∧
    (handleSendTransaction hooks txParams).signInput =
      some { txParams with nonce := some "0x7", gasPrice := some "0x4", gas := some "0x9000" } ∧
    PipelineStep.sign ∈ (handleSendTransaction hooks txParams).steps := by
  have hmerge : fillInTxExtrasMerge "0x4" "0x7" txParams =
      { txParams with nonce := some "0x7", gasPrice := some "0x4", gas := some "0x9000" } := by
    simp [fillInTxExtrasMerge, h1, h2, h3]
  have hfill : fillInTxExtras hooks.gasPriceResult hooks.nonceResult txParams =
      Except.ok ({ txParams with nonce := some "0x7", gasPrice := some "0x4", gas := some "0x9000" } : TxParams) := by
    rw [hg, hnc]
    simp [fillInTxExtras, hmerge]
  refine ⟨rfl, ?_, ?_, ?_, hmerge, ?_, ?_⟩
  · intro tx gp n v hv
    simp [fillInTxExtrasMerge, hv]
  · intro tx gp n v hv
    simp [fillInTxExtrasMerge, hv]
  · intro tx gp n v hv
    simp [fillInTxExtrasMerge, hv]
  · rcases hs : hooks.signTransaction ({ txParams with nonce := some "0x7", gasPrice := some "0x4", gas := some "0x9000" } : TxParams) with e | raw
    · simp [handleSendTransaction, ha, hfill, hs]
    · rcases hsub : hooks.submitTx raw with e | res <;>
        simp [handleSendTransaction, ha, hfill, hs, hsub]
  · rcases hs : hooks.signTransaction ({ txParams with nonce := some "0x7", gasPrice := some "0x4", gas := some "0x9000" } : TxParams) with e | raw
    · simp [handleSendTransaction, ha, hfill, hs]
    · rcases hsub : hooks.submitTx raw with e | res <;>
        simp [handleSendTransaction, ha, hfill, hs, hsub]

/-- Witness for C7 at the concrete scenario collaborators and the empty
transaction. -/
theorem c7_witness :
    scenarioHooks.approveTransaction = Except.ok true ∧
    scenarioHooks.gasPriceResult = Except.ok "0x4" ∧
    scenarioHooks.nonceResult = Except.ok "0x7" ∧
    emptyTxParams.nonce = none ∧ emptyTxParams.gasPrice = none ∧ emptyTxParams.gas = none ∧
    (fillInTxExtrasPayloadMethods emptyTxParams =
      [("eth_gasPrice", []), ("eth_getTransactionCount", [emptyTxParams.fromAddr, "pending"])] ∧
    (∀ (tx : TxParams) (gp n v : String),
      tx.gasPrice = some v → (fillInTxExtrasMerge gp n tx).gasPrice = some v) ∧
    (∀ (tx : TxParams) (gp n v : String),
      tx.nonce = some v → (fillInTxExtrasMerge gp n tx).nonce = some v) ∧
    (∀ (tx : TxParams) (gp n v : String),
      tx.gas = some v → (fillInTxExtrasMerge gp n tx).gas = some v) ∧
    fillInTxExtrasMerge "0x4" "0x7" emptyTxParams =
      { emptyTxParams with nonce := some "0x7", gasPrice := some "0x4", gas := some "0x9000" } ∧
    (handleSendTransaction scenarioHooks emptyTxParams).signInput =
      some { emptyTxParams with nonce := some "0x7", gasPrice := some "0x4", gas := some "0x9000" } ∧
    PipelineStep.sign ∈ (handleSendTransaction scenarioHooks emptyTxParams).steps) :=
  ⟨rfl, rfl, rfl, rfl, rfl, rfl, c7 scenarioHooks emptyTxParams rfl rfl rfl rfl rfl rfl⟩

/-- The trace scan distributes over concatenation. -/
theorem traceRun_append (t1 t2 : List VmEvent) (r : Option Bool) :
    traceRun (t1 ++ t2) r = (traceRun t1 r).bind (fun m => traceRun t2 m) := by
  induction t1 generalizing r with
  | nil => rfl
  | cons e rest ih =>
    cases e with
    | engineStart i =>
      cases r with
      | none => simpa [traceRun] using ih (some i)
      | some j => rfl
    | engineEnd i =>
      cases r with
      | none => rfl
      | some j =>
        by_cases hij : i = j
        · simp [traceRun, hij, ih]
        · simp [traceRun, hij]

/-- When no request runs, both phases differ from running. -/
theorem runningOf_none_parts (s : GateSimState) (h : runningOf s = none) :
    s.phaseF ≠ ReqPhase.running ∧ s.phaseT ≠ ReqPhase.running := by
  unfold runningOf at h
  constructor
  · intro hx
    rw [if_pos hx] at h
    cases h
  · intro hx
    by_cases hf : s.phaseF = ReqPhase.running
    · rw [if_pos hf] at h
      cases h
    · rw [if_neg hf, if_pos hx] at h
      cases h

/-- The running request determines the value of runningOf, given that at most
one request runs. -/
theorem runningOf_eq_some (s : GateSimState) (i : Bool)
    (hr : phaseOf s i = ReqPhase.running)
    (hnb : ¬(s.phaseF = ReqPhase.running ∧ s.phaseT = ReqPhase.running)) :
    runningOf s = some i := by
  cases i with
  | false =>
    have hf : s.phaseF = ReqPhase.running := by simpa [phaseOf] using hr
    simp [runningOf, hf]
  | true =>
    have ht : s.phaseT = ReqPhase.running := by simpa [phaseOf] using hr
    have hf : s.phaseF ≠ ReqPhase.running := fun h => hnb ⟨h, ht⟩
    simp [runningOf, hf, ht]

/-- A duplicate-free list of booleans avoiding one value has length at most
one: it is empty or the singleton of the other value. -/
theorem bool_queue_cases (l : List Bool) (i : Bool) (hnd : l.Nodup)
    (hne : ∀ b ∈ l, b ≠ i) : l = [] ∨ l = [!i] := by
  match l with
  | [] => exact Or.inl rfl
  | [b] =>
    right
    have hb := hne b (by simp)
    cases i <;> cases b <;> first | rfl | exact absurd rfl hb
  | b :: c :: rest =>
    exfalso
    have hb := hne b (by simp)
    have hc := hne c (by simp)
    have hbc : b ≠ c := by
      intro e
      have := (List.nodup_cons.mp hnd).1
      exact this (e ▸ List.mem_cons_self c rest)
    cases i <;> cases b <;> cases c <;>
      first | exact hb rfl | exact hc rfl | exact hbc rfl

/-- The initial state satisfies the invariant. -/
theorem gateInv_init : GateInv initState := by
  refine ⟨rfl, by simp [initState, runningOf], ?_, ?_, ?_⟩
  · intro h
    cases h.1
  · intro b hb
    simp [initState] at hb
  · simp [initState]


/-- Every simulation step preserves the invariant. -/
theorem gateInv_step (s : GateSimState) (a : VmAction) (h : GateInv s) :
    GateInv (vmStep s a) := by
  obtain ⟨htr, hgate, hnb, hq, hnd⟩ := h
  cases a with
  | arrive i =>
    by_cases hp : phaseOf s i = ReqPhase.start
    · cases hgo : s.gateOpen with
      | true =>
        have hrn : runningOf s = none := hgate.mp hgo
        have hparts := runningOf_none_parts s hrn
        cases i with
        | false =>
          have hpf : s.phaseF = ReqPhase.start := by simpa [phaseOf] using hp
          have hstep : vmStep s (VmAction.arrive false) = { gateOpen := false, gateQueue := s.gateQueue, phaseF := ReqPhase.running, phaseT := s.phaseT, trace := s.trace ++ [VmEvent.engineStart false] } := by
            simp [vmStep, phaseOf, setPhase, hpf, hgo]
          rw [hstep]
          refine ⟨?_, ?_, ?_, ?_, hnd⟩
          · rw [traceRun_append, htr, hrn]
            simp [traceRun, runningOf]
          · simp [runningOf]
          · intro hcon
            exact hparts.2 hcon.2
          · intro b hb
            cases b with
            | false => exact absurd (hq false hb) (by simp [phaseOf, hpf])
            | true => simpa [phaseOf] using hq true hb
        | true =>
          have hpt : s.phaseT = ReqPhase.start := by simpa [phaseOf] using hp
          have hstep : vmStep s (VmAction.arrive true) = { gateOpen := false, gateQueue := s.gateQueue, phaseF := s.phaseF, phaseT := ReqPhase.running, trace := s.trace ++ [VmEvent.engineStart true] } := by
            simp [vmStep, phaseOf, setPhase, hpt, hgo]
          rw [hstep]
          refine ⟨?_, ?_, ?_, ?_, hnd⟩
          · rw [traceRun_append, htr, hrn]
            simp [traceRun, runningOf, hparts.1]
          · simp [runningOf, hparts.1]
          · intro hcon
            exact hparts.1 hcon.1
          · intro b hb
            cases b with
            | false => simpa [phaseOf] using hq false hb
            | true => exact absurd (hq true hb) (by simp [phaseOf, hpt])
      | false =>
        have hrs : runningOf s ≠ none := by
          intro hnone
          have hgt := hgate.mpr hnone
          rw [hgo] at hgt
          cases hgt
        cases i with
        | false =>
          have hpf : s.phaseF = ReqPhase.start := by simpa [phaseOf] using hp
          have hfn : false ∉ s.gateQueue := by
            intro hmem
            have hqf := hq false hmem
            rw [phaseOf] at hqf
            simp [hpf] at hqf
          have hstep : vmStep s (VmAction.arrive false) = { gateOpen := false, gateQueue := s.gateQueue ++ [false], phaseF := ReqPhase.queued, phaseT := s.phaseT, trace := s.trace } := by
            simp [vmStep, phaseOf, setPhase, hpf, hgo]
          rw [hstep]
          have hro : runningOf { gateOpen := false, gateQueue := s.gateQueue ++ [false], phaseF := ReqPhase.queued, phaseT := s.phaseT, trace := s.trace } = runningOf s := by
            simp [runningOf, hpf]
          refine ⟨?_, ?_, ?_, ?_, ?_⟩
          · rw [hro]
            exact htr
          · rw [hro]
            constructor
            · intro hfalse
              cases hfalse
            · intro hnone
              exact absurd hnone hrs
          · intro hcon
            exact absurd hcon.1 (by simp)
          · intro b hb
            rcases List.mem_append.mp hb with h1 | h2
            · cases b with
              | false => simp [phaseOf]
              | true => simpa [phaseOf] using hq true h1
            · have hb2 : b = false := by simpa using h2
              subst hb2
              simp [phaseOf]
          · simp [List.nodup_append, hnd, hfn]
        | true =>
          have hpt : s.phaseT = ReqPhase.start := by simpa [phaseOf] using hp
          have htn : true ∉ s.gateQueue := by
            intro hmem
            have hqt := hq true hmem
            rw [phaseOf] at hqt
            simp [hpt] at hqt
          have hstep : vmStep s (VmAction.arrive true) = { gateOpen := false, gateQueue := s.gateQueue ++ [true], phaseF := s.phaseF, phaseT := ReqPhase.queued, trace := s.trace } := by
            simp [vmStep, phaseOf, setPhase, hpt, hgo]
          rw [hstep]
          have hro : runningOf { gateOpen := false, gateQueue := s.gateQueue ++ [true], phaseF := s.phaseF, phaseT := ReqPhase.queued, trace := s.trace } = runningOf s := by
            simp [runningOf, hpt]
          refine ⟨?_, ?_, ?_, ?_, ?_⟩
          · rw [hro]
            exact htr
          · rw [hro]
            constructor
            · intro hfalse
              cases hfalse
            · intro hnone
              exact absurd hnone hrs
          · intro hcon
            exact absurd hcon.2 (by simp)
          · intro b hb
            rcases List.mem_append.mp hb with h1 | h2
            · cases b with
              | false => simpa [phaseOf] using hq false h1
              | true => simp [phaseOf]
            · have hb2 : b = true := by simpa using h2
              subst hb2
              simp [phaseOf]
          · simp [List.nodup_append, hnd, htn]
    · have hsame : vmStep s (VmAction.arrive i) = s := by
        simp [vmStep, hp]
      rw [hsame]
      exact ⟨htr, hgate, hnb, hq, hnd⟩
  | complete i =>
    by_cases hr : phaseOf s i = ReqPhase.running
    · have hne : ∀ b ∈ s.gateQueue, b ≠ i := by
        intro b hb e
        subst e
        have hb2 := hq b hb
        rw [hr] at hb2
        cases hb2
      have hqcases := bool_queue_cases s.gateQueue i hnd hne
      have hrsome : runningOf s = some i := runningOf_eq_some s i hr hnb
      cases i with
      | false =>
        have hpf : s.phaseF = ReqPhase.running := by simpa [phaseOf] using hr
        have hptn : s.phaseT ≠ ReqPhase.running := fun hx => hnb ⟨hpf, hx⟩
        rcases hqcases with hq0 | hq1
        · have hstep : vmStep s (VmAction.complete false) = { gateOpen := true, gateQueue := [], phaseF := ReqPhase.done, phaseT := s.phaseT, trace := s.trace ++ [VmEvent.engineEnd false] } := by
            simp [vmStep, phaseOf, setPhase, hpf, hq0, releaseAll]
          rw [hstep]
          refine ⟨?_, ?_, ?_, ?_, ?_⟩
          · rw [traceRun_append, htr, hrsome]
            simp [traceRun, runningOf, hptn]
          · simp [runningOf, hptn]
          · intro hcon
            exact absurd hcon.1 (by simp)
          · intro b hb
            simp at hb
          · simp
        · have hstep : vmStep s (VmAction.complete false) = { gateOpen := false, gateQueue := [], phaseF := ReqPhase.done, phaseT := ReqPhase.running, trace := (s.trace ++ [VmEvent.engineEnd false]) ++ [VmEvent.engineStart true] } := by
            simp [vmStep, phaseOf, setPhase, hpf, hq1, releaseAll]
          rw [hstep]
          refine ⟨?_, ?_, ?_, ?_, ?_⟩
          · rw [traceRun_append, traceRun_append, htr, hrsome]
            simp [traceRun, runningOf]
          · simp [runningOf]
          · intro hcon
            exact absurd hcon.1 (by simp)
          · intro b hb
            simp at hb
          · simp
      | true =>
        have hpt : s.phaseT = ReqPhase.running := by simpa [phaseOf] using hr
        have hpfn : s.phaseF ≠ ReqPhase.running := fun hx => hnb ⟨hx, hpt⟩
        rcases hqcases with hq0 | hq1
        · have hstep : vmStep s (VmAction.complete true) = { gateOpen := true, gateQueue := [], phaseF := s.phaseF, phaseT := ReqPhase.done, trace := s.trace ++ [VmEvent.engineEnd true] } := by
            simp [vmStep, phaseOf, setPhase, hpt, hq0, releaseAll]
          rw [hstep]
          refine ⟨?_, ?_, ?_, ?_, ?_⟩
          · rw [traceRun_append, htr, hrsome]
            simp [traceRun, runningOf, hpfn]
          · simp [runningOf, hpfn]
          · intro hcon
            exact absurd hcon.2 (by simp)
          · intro b hb
            simp at hb
          · simp
        · have hstep : vmStep s (VmAction.complete true) = { gateOpen := false, gateQueue := [], phaseF := ReqPhase.running, phaseT := ReqPhase.done, trace := (s.trace ++ [VmEvent.engineEnd true]) ++ [VmEvent.engineStart false] } := by
            simp [vmStep, phaseOf, setPhase, hpt, hq1, releaseAll]
          rw [hstep]
          refine ⟨?_, ?_, ?_, ?_, ?_⟩
          · rw [traceRun_append, traceRun_append, htr, hrsome]
            simp [traceRun, runningOf]
          · simp [runningOf]
          · intro hcon
            exact absurd hcon.2 (by simp)
          · intro b hb
            simp at hb
          · simp
    · have hsame : vmStep s (VmAction.complete i) = s := by
        simp [vmStep, hr]
      rw [hsame]
      exact ⟨htr, hgate, hnb, hq, hnd⟩

/-- Every state reached by running stimuli from the initial state satisfies
the invariant. -/
theorem gateInv_run (acts : List VmAction) : GateInv (runActions acts) := by
  have hgen : ∀ (l : List VmAction) (s : GateSimState), GateInv s →
      GateInv (List.foldl vmStep s l) := by
    intro l
    induction l with
    | nil => intro s hs; exact hs
    | cons a rest ih =>
      intro s hs
      exact ih (vmStep s a) (gateInv_step s a hs)
  exact hgen acts initState gateInv_init

/-- Claim C9: over the spec-modelled gate, for any interleaving of arrivals
and completions of two concurrent simulate/estimate requests sharing one gate
instance, the produced engine-event trace is sequential: the scan accepts it,
meaning the two engine invocations never overlap and an engine invocation
starts only after every earlier one has completed, because the arriving
continuation closes the gate on entry and a queued continuation is released
only by the matching open performed on engine completion. -/
theorem c9 (acts : List VmAction) : sequentialTrace (runActions acts).trace = true := by
  have h := gateInv_run acts
  obtain ⟨htr, -, -, -, -⟩ := h
  simp [sequentialTrace, htr]

/-- A sanity run: both requests arrive while the first is running, and the
full trace is the first invocation followed by the second. -/
theorem runActions_example :
    (runActions [VmAction.arrive false, VmAction.arrive true, VmAction.complete false,
       VmAction.complete true]).trace =
      [VmEvent.engineStart false, VmEvent.engineEnd false, VmEvent.engineStart true,
       VmEvent.engineEnd true] := by
  decide
